import Mathlib

/-!
Verification of the Zyxel NWA50AX SSH integration
(`custom_components/ha_zyxel/zyxel_ssh_api.py`, class `ZyxelSSHAPI`).

Text is modelled as `List Char` (the repository only ever sees ASCII CLI
output, so the ASCII fragments of Python's `\d`, `\s`, `\S`, `\w` classes
are used).  The Python `re` engine is a backtracking matcher; the
combinators below reproduce its semantics for exactly the constructs the
source uses: literal text, character classes, greedy `+`/`*`/`?`
(longest-first with backtracking into the run), lazy `.*?` under
`re.DOTALL` (shortest-first), ordered alternation, the `$` anchor
(end of string, or just before a final newline), `re.search` (leftmost
position wins), `re.findall` (scan, resume after each match) and
`re.split`.
-/

set_option maxRecDepth 100000

namespace Zyxel

/-- First `some` in a list of attempts (ordered backtracking choice). -/
def firstSome {α : Type} : List (Option α) → Option α
  | [] => none
  | some a :: _ => some a
  | none :: rest => firstSome rest

/-- Consume the literal `lit` from the front of `xs`, returning the rest. -/
def dropLit : List Char → List Char → Option (List Char)
  | [], xs => some xs
  | _ :: _, [] => none
  | c :: cs, x :: xs => if x = c then dropLit cs xs else none

/-- All ways a greedy `class+` can split `xs`, longest consumed run first;
each element is (consumed run, remaining input). -/
def plusSplits (p : Char → Bool) (xs : List Char) : List (List Char × List Char) :=
  let run := xs.takeWhile p
  let rest := xs.dropWhile p
  (List.range run.length).map fun j =>
    (run.take (run.length - j), run.drop (run.length - j) ++ rest)

/-- All ways a greedy `class*` can split `xs`, longest consumed run first. -/
def starSplits (p : Char → Bool) (xs : List Char) : List (List Char × List Char) :=
  let run := xs.takeWhile p
  let rest := xs.dropWhile p
  (List.range (run.length + 1)).map fun j =>
    (run.take (run.length - j), run.drop (run.length - j) ++ rest)

/-- Greedy `class+` with backtracking: try the longest run first, then give
characters back, exactly as Python's `re` does. -/
def tryPlus {α : Type} (p : Char → Bool) (xs : List Char)
    (k : List Char → List Char → Option α) : Option α :=
  firstSome ((plusSplits p xs).map fun pr => k pr.1 pr.2)

/-- Greedy `class*` with backtracking. -/
def tryStar {α : Type} (p : Char → Bool) (xs : List Char)
    (k : List Char → List Char → Option α) : Option α :=
  firstSome ((starSplits p xs).map fun pr => k pr.1 pr.2)

/-- Greedy single-character option `c?`: take the character if present and
fall back to the empty match, as Python backtracks. -/
def tryOpt {α : Type} (c : Char) (xs : List Char)
    (k : List Char → List Char → Option α) : Option α :=
  match xs with
  | x :: rest =>
    if x = c then
      match k [c] rest with
      | some a => some a
      | none => k [] (x :: rest)
    else k [] (x :: rest)
  | [] => k [] []

/-- Literal text followed by continuation. -/
def tryLit {α : Type} (lit : List Char) (xs : List Char)
    (k : List Char → Option α) : Option α :=
  match dropLit lit xs with
  | some r => k r
  | none => none

/-- Ordered alternation of literal strings (`(a|b|c)`), Python order. -/
def tryAlts {α : Type} (alts : List (List Char)) (xs : List Char)
    (k : List Char → List Char → Option α) : Option α :=
  firstSome (alts.map fun a =>
    match dropLit a xs with
    | some r => k a r
    | none => none)

/-- Lazy `.*?` under `re.DOTALL`: try skipping 0 characters, then 1, ...;
the consumed characters are handed to the continuation (for captures). -/
def tryLazyAll {α : Type} (xs : List Char)
    (k : List Char → List Char → Option α) : Option α :=
  firstSome ((List.range (xs.length + 1)).map fun i =>
    k (xs.take i) (xs.drop i))

/-- Python's `$` without `re.MULTILINE`: matches at the end of the string
or just before a trailing newline. -/
def atDollar : List Char → Bool
  | [] => true
  | [c] => c = '\n'
  | _ :: _ :: _ => false

/-- `re.search`: try the matcher at every start position, leftmost first
(also at the end-of-string position). -/
def searchIn {α : Type} (m : List Char → Option α) : List Char → Option α
  | [] => m []
  | c :: cs =>
    match m (c :: cs) with
    | some a => some a
    | none => searchIn m cs

/-- `re.findall`: scan left to right, resume after each (non-empty) match.
`fuel` bounds the recursion; every matcher used consumes at least one
character on success, so `input.length + 1` fuel is always enough. -/
def findAllFuel {α : Type} (m : List Char → Option (α × List Char)) :
    Nat → List Char → List α
  | 0, _ => []
  | _ + 1, [] =>
    match m [] with
    | some (a, _) => [a]
    | none => []
  | fuel + 1, c :: cs =>
    match m (c :: cs) with
    | some (a, rest) => a :: findAllFuel m fuel rest
    | none => findAllFuel m fuel cs

/-- `re.split`: the matcher returns the input remaining after the matched
separator.  `acc` holds the current segment (reversed). -/
def splitGo (m : List Char → Option (List Char)) :
    Nat → List Char → List Char → List (List Char)
  | 0, acc, xs => [acc.reverse ++ xs]
  | _ + 1, acc, [] => [acc.reverse]
  | fuel + 1, acc, c :: cs =>
    match m (c :: cs) with
    | some rest => acc.reverse :: splitGo m fuel [] rest
    | none => splitGo m fuel (c :: acc) cs

/-- ASCII fragment of Python's `\s` class. -/
def isSpaceCh (c : Char) : Bool :=
  c = ' ' || c = '\t' || c = '\n' || c = '\r' || c = '\x0b' || c = '\x0c'

/-- Python's `\S` (complement of `\s`). -/
def isNonSpaceCh (c : Char) : Bool := !isSpaceCh c

/-- `.` without `re.DOTALL`: any character except a newline. -/
def isDotCh (c : Char) : Bool := !(c == '\n')

/-- The MAC-address class `[\da-fA-F:]`. -/
def isHexColonCh (c : Char) : Bool :=
  c.isDigit || ('a' ≤ c && c ≤ 'f') || ('A' ≤ c && c ≤ 'F') || c = ':'

/-- The dotted-quad class `[\d.]`. -/
def isDotDigitCh (c : Char) : Bool := c.isDigit || c = '.'

/-- The band class `[\dG.Hz]`. -/
def isBandCh (c : Char) : Bool :=
  c.isDigit || c = 'G' || c = '.' || c = 'H' || c = 'z'

/-- The band class `[\dG.]` used by `_parse_wlan`. -/
def isBandGCh (c : Char) : Bool := c.isDigit || c = 'G' || c = '.'

/-- The port-uptime class `[\d:]`. -/
def isColonDigitCh (c : Char) : Bool := c.isDigit || c = ':'

/-- ASCII fragment of Python's `\w` class. -/
def isWordCh (c : Char) : Bool :=
  c.isDigit || ('a' ≤ c && c ≤ 'z') || ('A' ≤ c && c ≤ 'Z') || c = '_'

/-- Python `int()` on a string of decimal digits. -/
def natOfDigits (xs : List Char) : Nat :=
  xs.foldl (fun a c => 10 * a + (c.toNat - 48)) 0

/-- Python `int()` on a `-?\d+` group. -/
def intOfSigned : List Char → Int
  | '-' :: rest => -(natOfDigits rest : Int)
  | xs => (natOfDigits xs : Int)

/-- Python `str.strip()` (ASCII whitespace). -/
def pyStrip (xs : List Char) : List Char :=
  ((xs.dropWhile isSpaceCh).reverse.dropWhile isSpaceCh).reverse

/-- Matcher for `(\d+)\s+days?\s+(\d+):(\d+):(\d+)` at one position
(`_parse_uptime`, first pattern). -/
def matchUptimeDays (xs : List Char) : Option (Nat × Nat × Nat × Nat) :=
  tryPlus Char.isDigit xs fun d r =>
  tryPlus isSpaceCh r fun _ r =>
  tryLit ['d', 'a', 'y'] r fun r =>
  tryOpt 's' r fun _ r =>
  tryPlus isSpaceCh r fun _ r =>
  tryPlus Char.isDigit r fun h r =>
  tryLit [':'] r fun r =>
  tryPlus Char.isDigit r fun m r =>
  tryLit [':'] r fun r =>
  tryPlus Char.isDigit r fun s _ =>
  some (natOfDigits d, natOfDigits h, natOfDigits m, natOfDigits s)

/-- Matcher for `(\d+):(\d+):(\d+)` at one position
(`_parse_uptime`, fallback pattern). -/
def matchUptimeHMS (xs : List Char) : Option (Nat × Nat × Nat) :=
  tryPlus Char.isDigit xs fun h r =>
  tryLit [':'] r fun r =>
  tryPlus Char.isDigit r fun m r =>
  tryLit [':'] r fun r =>
  tryPlus Char.isDigit r fun s _ =>
  some (natOfDigits h, natOfDigits m, natOfDigits s)

/-- `ZyxelSSHAPI._parse_uptime`: seconds from "X days HH:MM:SS", else from
"HH:MM:SS", else 0. -/
def _parse_uptime (output : String) : Nat :=
  match searchIn matchUptimeDays output.data with
  | some (d, h, m, s) => d * 86400 + h * 3600 + m * 60 + s
  | none =>
    match searchIn matchUptimeHMS output.data with
    | some (h, m, s) => h * 3600 + m * 60 + s
    | none => 0

/-- Result of `_parse_version`. -/
structure DeviceInfo where
  model : String
  firmware : String
  build_date : String
deriving Repr, DecidableEq

/-- Matcher for `LABEL\s*:\s*(.+)` at one position (`_parse_version`). -/
def matchVerLabel (label : List Char) (xs : List Char) : Option (List Char) :=
  tryLit label xs fun r =>
  tryStar isSpaceCh r fun _ r =>
  tryLit [':'] r fun r =>
  tryStar isSpaceCh r fun _ r =>
  tryPlus isDotCh r fun g _ => some g

/-- `ZyxelSSHAPI._parse_version`. -/
def _parse_version (output : String) : DeviceInfo :=
  let d := output.data
  { model := match searchIn (matchVerLabel "model".data) d with
      | some g => String.mk (pyStrip g)
      | none => "Unknown"
    firmware := match searchIn (matchVerLabel "firmware version".data) d with
      | some g => String.mk (pyStrip g)
      | none => "Unknown"
    build_date := match searchIn (matchVerLabel "build date".data) d with
      | some g => String.mk (pyStrip g)
      | none => "Unknown" }

/-- Result of `_parse_cpu`. -/
structure CpuData where
  current : Nat
  avg_1min : Nat
  avg_5min : Nat
  cores : List Nat
deriving Repr, DecidableEq

/-- Matcher for `CPU core (\d+) utilization:\s*(\d+)\s*%`. -/
def matchCpuCore (xs : List Char) :
    Option ((List Char × List Char) × List Char) :=
  tryLit "CPU core ".data xs fun r =>
  tryPlus Char.isDigit r fun g1 r =>
  tryLit " utilization:".data r fun r =>
  tryStar isSpaceCh r fun _ r =>
  tryPlus Char.isDigit r fun g2 r =>
  tryStar isSpaceCh r fun _ r =>
  tryLit ['%'] r fun r =>
  some ((g1, g2), r)

/-- Matcher for `CPU core (\d+) utilization for 1 min:\s*(\d+)\s*%`. -/
def matchCpu1Min (xs : List Char) :
    Option ((List Char × List Char) × List Char) :=
  tryLit "CPU core ".data xs fun r =>
  tryPlus Char.isDigit r fun g1 r =>
  tryLit " utilization for 1 min:".data r fun r =>
  tryStar isSpaceCh r fun _ r =>
  tryPlus Char.isDigit r fun g2 r =>
  tryStar isSpaceCh r fun _ r =>
  tryLit ['%'] r fun r =>
  some ((g1, g2), r)

/-- Matcher for `CPU core (\d+) utilization for 5 min:\s*(\d+)\s*%`. -/
def matchCpu5Min (xs : List Char) :
    Option ((List Char × List Char) × List Char) :=
  tryLit "CPU core ".data xs fun r =>
  tryPlus Char.isDigit r fun g1 r =>
  tryLit " utilization for 5 min:".data r fun r =>
  tryStar isSpaceCh r fun _ r =>
  tryPlus Char.isDigit r fun g2 r =>
  tryStar isSpaceCh r fun _ r =>
  tryLit ['%'] r fun r =>
  some ((g1, g2), r)

/-- `ZyxelSSHAPI._parse_cpu`: each average is `sum // len` over the
matched per-core percentages (Python floor division = `Nat` division). -/
def _parse_cpu (output : String) : CpuData :=
  let d := output.data
  let fuel := d.length + 1
  let cur := findAllFuel matchCpuCore fuel d
  let m1 := findAllFuel matchCpu1Min fuel d
  let m5 := findAllFuel matchCpu5Min fuel d
  { current := if cur.isEmpty then 0
      else (cur.map fun c => natOfDigits c.2).sum / cur.length
    avg_1min := if m1.isEmpty then 0
      else (m1.map fun c => natOfDigits c.2).sum / m1.length
    avg_5min := if m5.isEmpty then 0
      else (m5.map fun c => natOfDigits c.2).sum / m5.length
    cores := if cur.isEmpty then [] else cur.map fun c => natOfDigits c.2 }

/-- Matcher for `memory usage:\s*(\d+)\s*%`. -/
def matchMemory (xs : List Char) : Option (List Char) :=
  tryLit "memory usage:".data xs fun r =>
  tryStar isSpaceCh r fun _ r =>
  tryPlus Char.isDigit r fun g r =>
  tryStar isSpaceCh r fun _ r =>
  tryLit ['%'] r fun _ => some g

/-- `ZyxelSSHAPI._parse_memory`. -/
def _parse_memory (output : String) : Nat :=
  match searchIn matchMemory output.data with
  | some g => natOfDigits g
  | none => 0

/-- One client dictionary built by `_parse_clients`; a `none` field is a
key the Python dict never received. -/
structure ClientRecord where
  mac : Option String := none
  ip : Option String := none
  ssid : Option String := none
  security : Option String := none
  rssi_dbm : Option Int := none
  rssi_percent : Option Nat := none
  band : Option String := none
  slot : Option Nat := none
  tx_rate : Option Nat := none
  rx_rate : Option Nat := none
  capability : Option String := none
  connected_since : Option String := none
deriving Repr, DecidableEq

/-- Matcher for `LABEL\s*(CLASS+)` where `LABEL` already carries its colon
(the client-field patterns `MAC:`, `IPv4:`, `RSSI:`, `Band:`, `Slot:`). -/
def matchLabelClass (label : List Char) (p : Char → Bool) (xs : List Char) :
    Option (List Char) :=
  tryLit label xs fun r =>
  tryStar isSpaceCh r fun _ r =>
  tryPlus p r fun g _ => some g

/-- Matcher for `LABEL\s*(.+)` (rest-of-line captures). -/
def matchLabelDot (label : List Char) (xs : List Char) : Option (List Char) :=
  tryLit label xs fun r =>
  tryStar isSpaceCh r fun _ r =>
  tryPlus isDotCh r fun g _ => some g

/-- Matcher for `RSSI dBm:\s*(-?\d+)`; the group keeps the sign. -/
def matchRssiDbm (xs : List Char) : Option (List Char) :=
  tryLit "RSSI dBm:".data xs fun r =>
  tryStar isSpaceCh r fun _ r =>
  tryOpt '-' r fun sgn r =>
  tryPlus Char.isDigit r fun g _ => some (sgn ++ g)

/-- Matcher for `TxRate:\s*(\d+)M` / `RxRate:\s*(\d+)M`. -/
def matchRate (label : List Char) (xs : List Char) : Option (List Char) :=
  tryLit label xs fun r =>
  tryStar isSpaceCh r fun _ r =>
  tryPlus Char.isDigit r fun g r =>
  tryLit ['M'] r fun _ => some g

/-- Matcher for the split separator `index:\s*\d+`; returns the text that
remains after the separator. -/
def matchIndexSep (xs : List Char) : Option (List Char) :=
  tryLit "index:".data xs fun r =>
  tryStar isSpaceCh r fun _ r =>
  tryPlus Char.isDigit r fun _ r => some r

/-- The body of `_parse_clients`' per-block loop: each field is set iff its
`re.search` matched.  The `ssid` field mirrors the `Display SSID:` /
`SSID:` if-elif (the Python `elif` runs the same search twice; being
deterministic, that equals matching once). -/
def parseClientBlock (b : List Char) : ClientRecord :=
  { mac := (searchIn (matchLabelClass "MAC:".data isHexColonCh) b).map
      fun g => String.mk (g.map Char.toUpper)
    ip := (searchIn (matchLabelClass "IPv4:".data isDotDigitCh) b).map String.mk
    ssid := match searchIn (matchLabelDot "Display SSID:".data) b with
      | some g => some (String.mk (pyStrip g))
      | none => (searchIn (matchLabelDot "SSID:".data) b).map
          fun g => String.mk (pyStrip g)
    security := (searchIn (matchLabelDot "Security:".data) b).map
      fun g => String.mk (pyStrip g)
    rssi_dbm := (searchIn matchRssiDbm b).map intOfSigned
    rssi_percent := (searchIn (matchLabelClass "RSSI:".data Char.isDigit) b).map
      natOfDigits
    band := (searchIn (matchLabelClass "Band:".data isBandCh) b).map String.mk
    slot := (searchIn (matchLabelClass "Slot:".data Char.isDigit) b).map
      natOfDigits
    tx_rate := (searchIn (matchRate "TxRate:".data) b).map natOfDigits
    rx_rate := (searchIn (matchRate "RxRate:".data) b).map natOfDigits
    capability := (searchIn (matchLabelDot "Capability:".data) b).map
      fun g => String.mk (pyStrip g)
    connected_since := (searchIn (matchLabelDot "Time:".data) b).map
      fun g => String.mk (pyStrip g) }

/-- Python truthiness of `client.get("mac")`: key present and non-empty. -/
def truthyStr : Option String → Bool
  | some s => !s.data.isEmpty
  | none => false

/-- `ZyxelSSHAPI._parse_clients`: split on `index:\s*\d+`, parse each block
after the first, keep only records whose `mac` is truthy. -/
def _parse_clients (output : String) : List ClientRecord :=
  let d := output.data
  let blocks := (splitGo matchIndexSep (d.length + 1) [] d).tail
  (blocks.map parseClientBlock).filter fun c => truthyStr c.mac

/-- One entry of the `interfaces` list built by `_parse_interfaces`. -/
structure InterfaceRecord where
  name : String
  status : String
  ip : Option String
deriving Repr, DecidableEq

/-- Result of `_parse_interfaces`. -/
structure NetworkData where
  ip_address : String
  netmask : String
  interfaces : List InterfaceRecord
deriving Repr, DecidableEq

/-- Matcher for `lan\s+Up\s+([\d.]+)\s+([\d.]+)`. -/
def matchLanLine (xs : List Char) : Option (List Char × List Char) :=
  tryLit "lan".data xs fun r =>
  tryPlus isSpaceCh r fun _ r =>
  tryLit "Up".data r fun r =>
  tryPlus isSpaceCh r fun _ r =>
  tryPlus isDotDigitCh r fun ip r =>
  tryPlus isSpaceCh r fun _ r =>
  tryPlus isDotDigitCh r fun mask _ => some (ip, mask)

/-- The ordered alternation `([\d.]+|n/a)`: the dotted-quad branch is tried
first (greedy, with backtracking through the continuation), then the
literal `n/a`, exactly as Python orders alternatives. -/
def tryIpCol {α : Type} (xs : List Char)
    (k : List Char → List Char → Option α) : Option α :=
  match tryPlus isDotDigitCh xs k with
  | some a => some a
  | none =>
    match dropLit "n/a".data xs with
    | some r => k "n/a".data r
    | none => none

/-- Matcher for `(\d+)\s+(\S+)\s+(Up|Down|n/a)\s+([\d.]+|n/a)`
(`_parse_interfaces`, via `re.findall`). -/
def matchIfaceLine (xs : List Char) :
    Option ((List Char × List Char × List Char × List Char) × List Char) :=
  tryPlus Char.isDigit xs fun g1 r =>
  tryPlus isSpaceCh r fun _ r =>
  tryPlus isNonSpaceCh r fun g2 r =>
  tryPlus isSpaceCh r fun _ r =>
  tryAlts ["Up".data, "Down".data, "n/a".data] r fun g3 r =>
  tryPlus isSpaceCh r fun _ r =>
  tryIpCol r fun g4 r =>
  some ((g1, g2, g3, g4), r)

/-- `ZyxelSSHAPI._parse_interfaces`. -/
def _parse_interfaces (output : String) : NetworkData :=
  let d := output.data
  let lan := searchIn matchLanLine d
  { ip_address := match lan with
      | some (ip, _) => String.mk ip
      | none => "Unknown"
    netmask := match lan with
      | some (_, mask) => String.mk mask
      | none => "Unknown"
    interfaces := (findAllFuel matchIfaceLine (d.length + 1) d).map
      fun g => match g with
      | (_, nm, st, ipc) =>
        { name := String.mk nm
          status := String.mk st
          ip := if String.mk ipc ≠ "n/a" then some (String.mk ipc) else none } }

/-- Result of `_parse_wlan`. -/
structure RadioData where
  slot1_active : Bool
  slot1_band : String
  slot1_ssids : List String
  slot2_active : Bool
  slot2_band : String
  slot2_ssids : List String
deriving Repr, DecidableEq

/-- Matcher for `slot: slotN.*?Activate: (\w+).*?Band: ([\dG.]+)` under
`re.DOTALL`. -/
def matchSlotActBand (slotLit : List Char) (xs : List Char) :
    Option (List Char × List Char) :=
  tryLit slotLit xs fun r =>
  tryLazyAll r fun _ r =>
  tryLit "Activate: ".data r fun r =>
  tryPlus isWordCh r fun act r =>
  tryLazyAll r fun _ r =>
  tryLit "Band: ".data r fun r =>
  tryPlus isBandGCh r fun band _ => some (act, band)

/-- Matcher for `slot: slot1(.*?)(?:slot: slot2|$)` under `re.DOTALL`. -/
def matchSlot1Block (xs : List Char) : Option (List Char) :=
  tryLit "slot: slot1".data xs fun r =>
  tryLazyAll r fun g r =>
    match dropLit "slot: slot2".data r with
    | some _ => some g
    | none => if atDollar r then some g else none

/-- Matcher for `slot: slot2(.*?)$` under `re.DOTALL`. -/
def matchSlot2Block (xs : List Char) : Option (List Char) :=
  tryLit "slot: slot2".data xs fun r =>
  tryLazyAll r fun g r => if atDollar r then some g else none

/-- Matcher for `SSID_profile_\d+:\s*(\S+)` (via `re.findall`). -/
def matchSsidProf (xs : List Char) : Option (List Char × List Char) :=
  tryLit "SSID_profile_".data xs fun r =>
  tryPlus Char.isDigit r fun _ r =>
  tryLit [':'] r fun r =>
  tryStar isSpaceCh r fun _ r =>
  tryPlus isNonSpaceCh r fun g r => some (g, r)

/-- The list comprehension `[s for s in ssids if s]` over a slot block. -/
def slotSsids (block : List Char) : List String :=
  ((findAllFuel matchSsidProf (block.length + 1) block).filter
    fun s => !s.isEmpty).map String.mk

/-- `ZyxelSSHAPI._parse_wlan`; `group(1).lower() == "yes"` decides the
active flag. -/
def _parse_wlan (output : String) : RadioData :=
  let d := output.data
  let s1 := searchIn (matchSlotActBand "slot: slot1".data) d
  let s2 := searchIn (matchSlotActBand "slot: slot2".data) d
  let b1 := searchIn matchSlot1Block d
  let b2 := searchIn matchSlot2Block d
  { slot1_active := match s1 with
      | some (act, _) => String.mk (act.map Char.toLower) == "yes"
      | none => false
    slot1_band := match s1 with
      | some (_, band) => String.mk band
      | none => "Unknown"
    slot1_ssids := match b1 with
      | some g => slotSsids g
      | none => []
    slot2_active := match s2 with
      | some (act, _) => String.mk (act.map Char.toLower) == "yes"
      | none => false
    slot2_band := match s2 with
      | some (_, band) => String.mk band
      | none => "Unknown"
    slot2_ssids := match b2 with
      | some g => slotSsids g
      | none => [] }

/-- Result of `_parse_port_status`. -/
structure PortData where
  status : String
  speed : String
  tx_bytes : Nat
  rx_bytes : Nat
  tx_rate : Nat
  rx_rate : Nat
  uptime : String
deriving Repr, DecidableEq

/-- Matcher for the port-status row
`1\s+(\S+)\s+\d+\s+\d+\s+\d+\s+\d+\s+\d+\s+(\d+)\s+(\d+)\s+([\d:]+)\s+\d+\s+(\d+)\s+(\d+)`. -/
def matchPortLine (xs : List Char) :
    Option (List Char × List Char × List Char × List Char × List Char × List Char) :=
  tryLit ['1'] xs fun r =>
  tryPlus isSpaceCh r fun _ r =>
  tryPlus isNonSpaceCh r fun st r =>
  tryPlus isSpaceCh r fun _ r =>
  tryPlus Char.isDigit r fun _ r =>
  tryPlus isSpaceCh r fun _ r =>
  tryPlus Char.isDigit r fun _ r =>
  tryPlus isSpaceCh r fun _ r =>
  tryPlus Char.isDigit r fun _ r =>
  tryPlus isSpaceCh r fun _ r =>
  tryPlus Char.isDigit r fun _ r =>
  tryPlus isSpaceCh r fun _ r =>
  tryPlus Char.isDigit r fun _ r =>
  tryPlus isSpaceCh r fun _ r =>
  tryPlus Char.isDigit r fun txr r =>
  tryPlus isSpaceCh r fun _ r =>
  tryPlus Char.isDigit r fun rxr r =>
  tryPlus isSpaceCh r fun _ r =>
  tryPlus isColonDigitCh r fun upt r =>
  tryPlus isSpaceCh r fun _ r =>
  tryPlus Char.isDigit r fun _ r =>
  tryPlus isSpaceCh r fun _ r =>
  tryPlus Char.isDigit r fun txb r =>
  tryPlus isSpaceCh r fun _ r =>
  tryPlus Char.isDigit r fun rxb _ =>
  some (st, txr, rxr, upt, txb, rxb)

/-- `status.split("/")[0]` when `"/" in status`, else the default. -/
def speedOf (st : List Char) : String :=
  if '/' ∈ st then String.mk (st.takeWhile fun c => !(c == '/')) else "Unknown"

/-- `ZyxelSSHAPI._parse_port_status`. -/
def _parse_port_status (output : String) : PortData :=
  match searchIn matchPortLine output.data with
  | some (st, txr, rxr, upt, txb, rxb) =>
    { status := String.mk st
      speed := speedOf st
      tx_bytes := natOfDigits txb
      rx_bytes := natOfDigits rxb
      tx_rate := natOfDigits txr
      rx_rate := natOfDigits rxr
      uptime := String.mk upt }
  | none =>
    { status := "Unknown", speed := "Unknown", tx_bytes := 0, rx_bytes := 0
      tx_rate := 0, rx_rate := 0, uptime := "Unknown" }

/-- A two-block `show wireless-hal station info` output in which both
blocks carry a (lowercase) MAC. -/
def twoMacInput : String :=
  "index: 1\nMAC: aa:bb:cc:dd:ee:ff\nIPv4: 10.0.0.5\nindex: 2\nMAC: 11:22:33:44:55:66\n"

/-- A two-block station output in which neither block carries a MAC. -/
def twoNoMacInput : String :=
  "index: 1\nIPv4: 1.2.3.4\nindex: 2\nIPv4: 5.6.7.8\n"

/-- A `show cpu all` output with three per-core utilization lines. -/
def threeCoreInput : String :=
  "CPU core 0 utilization: 10 %\nCPU core 1 utilization: 20 %\nCPU core 2 utilization: 30 %\n"

/-- The record the first block of `twoMacInput` parses to. -/
def clientOne : ClientRecord :=
  { mac := some "AA:BB:CC:DD:EE:FF", ip := some "10.0.0.5" }

/-! ### Aggregator and mutating actions

`async_get_data` builds a nested Python dict.  It is modelled as a flat
structure: a dict key that is only inserted when the corresponding
command's output is truthy becomes an `Option` field (`none` ≙ key
absent / section left at `{}`), `clients` (pre-seeded with `[]`) stays a
list, and the `port` key — written into `data["network"]` after the
interface section — is its own field.  The SSH layer is an oracle
`run : String → Option String`: `async_execute_command` returns the
command's stdout or, on any failure, `None`, and never raises (its body
is wrapped in `except Exception`).  Since the parsers are total and the
runner never raises, the `try` around the body of `async_get_data` never
fires, and each section is filled iff its command's output is truthy
(non-`None` and non-empty). -/

/-- The merged snapshot returned by `async_get_data`. -/
structure Snapshot where
  device_info : Option DeviceInfo
  status_uptime : Option Nat
  status_cpu : Option CpuData
  status_memory : Option Nat
  clients : List ClientRecord
  network : Option NetworkData
  network_port : Option PortData
  radio : Option RadioData
deriving Repr, DecidableEq

/-- `if output:` — apply the parser iff the response is truthy. -/
def ifTruthy {α : Type} (resp : Option String) (f : String → α) : Option α :=
  match resp with
  | some s => if s.data.isEmpty then none else some (f s)
  | none => none

/-- `ZyxelSSHAPI.async_get_data` over a command oracle `run`. -/
def async_get_data (run : String → Option String) : Snapshot :=
  { device_info := ifTruthy (run "show version") _parse_version
    status_uptime := ifTruthy (run "show system uptime") _parse_uptime
    status_cpu := ifTruthy (run "show cpu all") _parse_cpu
    status_memory := ifTruthy (run "show mem status") _parse_memory
    clients := match ifTruthy (run "show wireless-hal station info") _parse_clients with
      | some cs => cs
      | none => []
    network := ifTruthy (run "show interface all") _parse_interfaces
    network_port := ifTruthy (run "show port status") _parse_port_status
    radio := ifTruthy (run "show wlan all") _parse_wlan }

/-- The snapshot skeleton `async_get_data` starts from: every section at
its default/empty value. -/
def emptySnapshot : Snapshot :=
  { device_info := none, status_uptime := none, status_cpu := none,
    status_memory := none, clients := [], network := none,
    network_port := none, radio := none }

/-- Observable SSH traffic of a mutating action: a command sent (with the
response the oracle produced, which the code ignores) or the fixed
`asyncio.sleep(0.5)` pause. -/
inductive SshEvent where
  | send (cmd : String) (resp : Option String) : SshEvent
  | pause : SshEvent
deriving Repr, DecidableEq

/-- The five-command sequence of `async_toggle_guest_ssid`. -/
def toggleCommands (enable : Bool) : List String :=
  if enable then
    ["configure terminal", "wlan-ssid-profile Guest", "no ssid-schedule",
     "exit", "write"]
  else
    ["configure terminal", "wlan-ssid-profile Guest", "ssid-schedule",
     "exit", "write"]

/-- `ZyxelSSHAPI.async_toggle_guest_ssid`: sends each command (ignoring the
response — `async_execute_command` converts failures to `None` instead of
raising), sleeps after each, and returns `True`; the `except` branch is
unreachable because nothing in the loop raises.  Result: the event trace
and the returned boolean. -/
def async_toggle_guest_ssid (run : String → Option String) (enable : Bool) :
    List SshEvent × Bool :=
  (((toggleCommands enable).map fun c => [SshEvent.send c (run c), SshEvent.pause]).flatten,
   true)

/-- `ZyxelSSHAPI.async_reboot`: `True` iff the single "reboot" command
returned a non-`None` response (`if result is not None`). -/
def async_reboot (run : String → Option String) : Bool :=
  match run "reboot" with
  | some _ => true
  | none => false

/-! ### Soundness lemmas for the matching combinators -/

theorem firstSome_map_eq_some {β α : Type} {f : β → Option α} :
    ∀ {l : List β} {a : α}, firstSome (l.map f) = some a → ∃ b ∈ l, f b = some a := by
  intro l a h
  induction l with
  | nil => simp [firstSome, List.map_nil] at h
  | cons x l ih =>
    rw [List.map_cons] at h
    cases hx : f x with
    | some v =>
      rw [hx] at h
      refine ⟨x, List.mem_cons_self x l, ?_⟩
      rw [hx]
      simpa [firstSome] using h
    | none =>
      rw [hx] at h
      simp only [firstSome] at h
      obtain ⟨b, hb, hfb⟩ := ih h
      exact ⟨b, List.mem_cons_of_mem x hb, hfb⟩

theorem mem_plusSplits {p : Char → Bool} {xs t r : List Char}
    (h : (t, r) ∈ plusSplits p xs) : t ≠ [] ∧ ∀ c ∈ t, p c = true := by
  unfold plusSplits at h
  obtain ⟨j, hj, hf⟩ := List.mem_map.mp h
  rw [List.mem_range] at hj
  have ht : t = (xs.takeWhile p).take ((xs.takeWhile p).length - j) := by
    have := congrArg Prod.fst hf
    simpa using this.symm
  constructor
  · have hlen : t.length = (xs.takeWhile p).length - j := by
      rw [ht, List.length_take]
      omega
    intro hnil
    rw [hnil] at hlen
    simp at hlen
    omega
  · intro c hc
    rw [ht] at hc
    exact List.mem_takeWhile_imp (List.take_subset _ _ hc)

theorem tryPlus_eq_some {α : Type} {p : Char → Bool} {xs : List Char}
    {k : List Char → List Char → Option α} {a : α}
    (h : tryPlus p xs k = some a) :
    ∃ t r, t ≠ [] ∧ (∀ c ∈ t, p c = true) ∧ k t r = some a := by
  unfold tryPlus at h
  obtain ⟨⟨t, r⟩, hmem, hk⟩ := firstSome_map_eq_some h
  obtain ⟨hne, hall⟩ := mem_plusSplits hmem
  exact ⟨t, r, hne, hall, hk⟩

theorem tryStar_eq_some {α : Type} {p : Char → Bool} {xs : List Char}
    {k : List Char → List Char → Option α} {a : α}
    (h : tryStar p xs k = some a) : ∃ t r, k t r = some a := by
  unfold tryStar at h
  obtain ⟨⟨t, r⟩, _, hk⟩ := firstSome_map_eq_some h
  exact ⟨t, r, hk⟩

theorem tryLit_eq_some {α : Type} {l xs : List Char}
    {k : List Char → Option α} {a : α}
    (h : tryLit l xs k = some a) : ∃ r, k r = some a := by
  unfold tryLit at h
  cases hd : dropLit l xs with
  | some r => rw [hd] at h; exact ⟨r, h⟩
  | none => rw [hd] at h; exact absurd h (by simp)

theorem tryOpt_eq_some {α : Type} {c : Char} {xs : List Char}
    {k : List Char → List Char → Option α} {a : α}
    (h : tryOpt c xs k = some a) : ∃ t r, k t r = some a := by
  cases xs with
  | nil =>
    simp only [tryOpt] at h
    exact ⟨[], [], h⟩
  | cons x rest =>
    simp only [tryOpt] at h
    by_cases hx : x = c
    · rw [if_pos hx] at h
      cases hk : k [c] rest with
      | some v =>
        simp only [hk] at h
        exact ⟨[c], rest, by rw [hk]; exact h⟩
      | none => simp only [hk] at h; exact ⟨[], x :: rest, h⟩
    · rw [if_neg hx] at h
      exact ⟨[], x :: rest, h⟩

theorem tryAlts_eq_some {α : Type} {alts : List (List Char)} {xs : List Char}
    {k : List Char → List Char → Option α} {a : α}
    (h : tryAlts alts xs k = some a) :
    ∃ t ∈ alts, ∃ r, k t r = some a := by
  unfold tryAlts at h
  obtain ⟨t, hmem, hk⟩ := firstSome_map_eq_some h
  cases hd : dropLit t xs with
  | some r => rw [hd] at hk; exact ⟨t, hmem, r, hk⟩
  | none => rw [hd] at hk; exact absurd hk (by simp)

theorem searchIn_eq_some {α : Type} {m : List Char → Option α} :
    ∀ {xs : List Char} {a : α}, searchIn m xs = some a → ∃ ys, m ys = some a := by
  intro xs a h
  induction xs with
  | nil => exact ⟨[], h⟩
  | cons c cs ih =>
    unfold searchIn at h
    cases hm : m (c :: cs) with
    | some v =>
      simp only [hm] at h
      exact ⟨c :: cs, by rw [hm]; exact h⟩
    | none => simp only [hm] at h; exact ih h

theorem findAllFuel_mem {α : Type} {m : List Char → Option (α × List Char)} :
    ∀ {fuel : Nat} {xs : List Char} {a : α},
      a ∈ findAllFuel m fuel xs → ∃ ys rest, m ys = some (a, rest) := by
  intro fuel
  induction fuel with
  | zero => intro xs a h; simp [findAllFuel] at h
  | succ n ih =>
    intro xs a h
    match xs with
    | [] =>
      unfold findAllFuel at h
      cases hm : m [] with
      | some p =>
        obtain ⟨b, rest⟩ := p
        simp only [hm] at h
        simp at h
        exact ⟨[], rest, by rw [hm, h]⟩
      | none => simp only [hm] at h; simp at h
    | c :: cs =>
      unfold findAllFuel at h
      cases hm : m (c :: cs) with
      | some p =>
        obtain ⟨b, rest⟩ := p
        simp only [hm] at h
        rcases List.mem_cons.mp h with h1 | h2
        · exact ⟨c :: cs, rest, by rw [hm, h1]⟩
        · exact ih h2
      | none => simp only [hm] at h; exact ih h

theorem tryIpCol_eq_some {α : Type} {xs : List Char}
    {k : List Char → List Char → Option α} {a : α}
    (h : tryIpCol xs k = some a) :
    ∃ t r, (t = "n/a".data ∨ (t ≠ [] ∧ ∀ c ∈ t, isDotDigitCh c = true)) ∧
      k t r = some a := by
  unfold tryIpCol at h
  cases hb : tryPlus isDotDigitCh xs k with
  | some v =>
    simp only [hb] at h
    obtain ⟨t, r, hne, hall, hk⟩ := tryPlus_eq_some hb
    exact ⟨t, r, Or.inr ⟨hne, hall⟩, by rw [hk]; exact h⟩
  | none =>
    simp only [hb] at h
    cases hd : dropLit "n/a".data xs with
    | some r => rw [hd] at h; exact ⟨"n/a".data, r, Or.inl rfl, h⟩
    | none => rw [hd] at h; exact absurd h (by simp)

/-! ### Character-level lemmas -/

theorem ofNat_toNat_of_upper {n : Nat} (h1 : 65 ≤ n) (h2 : n ≤ 90) :
    (Char.ofNat n).toNat = n := by
  interval_cases n <;> decide

/-- `Char.toUpper` (the ASCII `.upper()`) never produces a lowercase
letter. -/
theorem toUpper_not_lower (x : Char) :
    ¬((Char.toUpper x).toNat ≥ 97 ∧ (Char.toUpper x).toNat ≤ 122) := by
  by_cases h : x.toNat ≥ 97 ∧ x.toNat ≤ 122
  · have hx : Char.toUpper x = Char.ofNat (x.toNat - 32) := by
      simp only [Char.toUpper]
      rw [if_pos h]
    rw [hx, ofNat_toNat_of_upper (by omega) (by omega)]
    omega
  · have hx : Char.toUpper x = x := by
      simp only [Char.toUpper]
      rw [if_neg h]
    rw [hx]
    exact h

/-- Characters outside the lowercase range are fixed by `Char.toUpper`. -/
theorem toUpper_eq_self_of_not_lower {c : Char}
    (h : ¬(c.toNat ≥ 97 ∧ c.toNat ≤ 122)) : Char.toUpper c = c := by
  simp only [Char.toUpper]
  rw [if_neg h]

/-- `Char.toUpper` is idempotent. -/
theorem toUpper_toUpper (x : Char) :
    Char.toUpper (Char.toUpper x) = Char.toUpper x :=
  toUpper_eq_self_of_not_lower (toUpper_not_lower x)

/-! ### Matcher-level soundness -/

/-- A `LABEL\s*(CLASS+)` capture is a non-empty run of class characters. -/
theorem matchLabelClass_sound {label : List Char} {p : Char → Bool}
    {xs g : List Char} (h : matchLabelClass label p xs = some g) :
    g ≠ [] ∧ ∀ c ∈ g, p c = true := by
  unfold matchLabelClass at h
  obtain ⟨r1, h⟩ := tryLit_eq_some h
  obtain ⟨t2, r2, h⟩ := tryStar_eq_some h
  obtain ⟨t3, r3, hne, hall, h⟩ := tryPlus_eq_some h
  obtain rfl : t3 = g := Option.some.inj h
  exact ⟨hne, hall⟩

/-- The interface-row matcher only ever captures `Up`, `Down` or `n/a` in
its status group, and its IP group is either the literal `n/a` or a
non-empty `[\d.]` run. -/
theorem matchIfaceLine_sound {xs : List Char}
    {g1 g2 g3 g4 rest : List Char}
    (h : matchIfaceLine xs = some ((g1, g2, g3, g4), rest)) :
    (g3 = "Up".data ∨ g3 = "Down".data ∨ g3 = "n/a".data) ∧
    (g4 = "n/a".data ∨ (g4 ≠ [] ∧ ∀ c ∈ g4, isDotDigitCh c = true)) := by
  unfold matchIfaceLine at h
  obtain ⟨tA, rA, _, _, h⟩ := tryPlus_eq_some h
  obtain ⟨tB, rB, _, _, h⟩ := tryPlus_eq_some h
  obtain ⟨tC, rC, _, _, h⟩ := tryPlus_eq_some h
  obtain ⟨tD, rD, _, _, h⟩ := tryPlus_eq_some h
  obtain ⟨alt, hmem, rE, h⟩ := tryAlts_eq_some h
  obtain ⟨tF, rF, _, _, h⟩ := tryPlus_eq_some h
  obtain ⟨tG, rG, hip, h⟩ := tryIpCol_eq_some h
  simp only [Option.some.injEq, Prod.mk.injEq] at h
  obtain ⟨⟨h1, h2, h3, h4⟩, hrest⟩ := h
  subst h3 h4
  constructor
  · simp only [List.mem_cons, List.not_mem_nil, or_false] at hmem
    rcases hmem with rfl | rfl | rfl
    · exact Or.inl rfl
    · exact Or.inr (Or.inl rfl)
    · exact Or.inr (Or.inr rfl)
  · exact hip

/-! ### Claim theorems -/

/-- C1, counterexample: the spec asserts `_parse_uptime` yields 105280
seconds on "1 days 05:34:40"; the code computes
1*86400 + 5*3600 + 34*60 + 40 = 106480. -/
theorem C1_counterexample : ¬ _parse_uptime "1 days 05:34:40" = 105280 := by
  decide

/-- C1 (amended): `_parse_uptime` on "1 days 05:34:40" yields 106480
seconds; on "05:34:40" yields 20080 seconds; and on any input matched by
neither the days pattern nor the HH:MM:SS pattern it yields 0. -/
theorem C1_uptime_values :
    _parse_uptime "1 days 05:34:40" = 106480 ∧
    _parse_uptime "05:34:40" = 20080 ∧
    ∀ s : String, searchIn matchUptimeDays s.data = none →
      searchIn matchUptimeHMS s.data = none → _parse_uptime s = 0 := by
  refine ⟨by decide, by decide, fun s h1 h2 => ?_⟩
  unfold _parse_uptime
  rw [h1, h2]

/-- C1, witness: the unmatched branch of `C1_uptime_values` at the
concrete input "no uptime here". -/
theorem C1_uptime_values_witness :
    searchIn matchUptimeDays "no uptime here".data = none ∧
    searchIn matchUptimeHMS "no uptime here".data = none ∧
    _parse_uptime "no uptime here" = 0 :=
  ⟨by decide, by decide,
   C1_uptime_values.2.2 "no uptime here" (by decide) (by decide)⟩

/-- C2: when every command returns the absence value the merged snapshot
is the documented default shape, and each individual command failure
leaves exactly its own section at its default/empty value; the aggregator
returns (never raises) in all cases since it is a total function of the
oracle. -/
theorem C2_aggregator_defaults :
    ∀ run : String → Option String,
      ((∀ cmd, run cmd = none) → async_get_data run = emptySnapshot) ∧
      (run "show version" = none → (async_get_data run).device_info = none) ∧
      (run "show system uptime" = none → (async_get_data run).status_uptime = none) ∧
      (run "show cpu all" = none → (async_get_data run).status_cpu = none) ∧
      (run "show mem status" = none → (async_get_data run).status_memory = none) ∧
      (run "show wireless-hal station info" = none → (async_get_data run).clients = []) ∧
      (run "show interface all" = none → (async_get_data run).network = none) ∧
      (run "show wlan all" = none → (async_get_data run).radio = none) ∧
      (run "show port status" = none → (async_get_data run).network_port = none) := by
  intro run
  refine ⟨fun hall => ?_, fun h => ?_, fun h => ?_, fun h => ?_, fun h => ?_,
    fun h => ?_, fun h => ?_, fun h => ?_, fun h => ?_⟩
  · simp [async_get_data, emptySnapshot, ifTruthy, hall]
  · simp [async_get_data, ifTruthy, h]
  · simp [async_get_data, ifTruthy, h]
  · simp [async_get_data, ifTruthy, h]
  · simp [async_get_data, ifTruthy, h]
  · simp [async_get_data, ifTruthy, h]
  · simp [async_get_data, ifTruthy, h]
  · simp [async_get_data, ifTruthy, h]
  · simp [async_get_data, ifTruthy, h]

/-- C2, witness: the all-failures oracle. -/
theorem C2_aggregator_defaults_witness :
    async_get_data (fun _ => none) = emptySnapshot :=
  (C2_aggregator_defaults (fun _ => none)).1 (fun _ => rfl)

/-- C3: every record `_parse_clients` returns carries a (non-empty) MAC —
block records without a truthy MAC are dropped — and on the two-block
inputs it returns exactly two records (both blocks have MACs) resp. zero
records (no block has a MAC). -/
theorem C3_clients_mac :
    (∀ (text : String) (c : ClientRecord), c ∈ _parse_clients text →
      ∃ m : String, c.mac = some m ∧ m.data ≠ []) ∧
    (_parse_clients twoMacInput).length = 2 ∧
    _parse_clients twoNoMacInput = [] := by
  refine ⟨fun text c hc => ?_, by decide, by decide⟩
  simp only [_parse_clients] at hc
  obtain ⟨-, hpred⟩ := List.mem_filter.mp hc
  unfold truthyStr at hpred
  cases hmac : c.mac with
  | none => rw [hmac] at hpred; simp at hpred
  | some m =>
    rw [hmac] at hpred
    simp only [Bool.not_eq_true'] at hpred
    exact ⟨m, rfl, by simpa using hpred⟩

/-- C3, witness: the universal part applied to the first record parsed
from `twoMacInput`. -/
theorem C3_clients_mac_witness :
    clientOne ∈ _parse_clients twoMacInput ∧
    ∃ m : String, clientOne.mac = some m ∧ m.data ≠ [] :=
  ⟨by decide, C3_clients_mac.1 twoMacInput clientOne (by decide)⟩

/-- C4: on the three-core input with utilizations 10/20/30 the current
CPU value is 20, and in general `current` is the floor-division average
of the matched per-core utilizations (the `cores` list). -/
theorem C4_cpu_average :
    (_parse_cpu threeCoreInput).current = 20 ∧
    ∀ s : String, (_parse_cpu s).cores ≠ [] →
      (_parse_cpu s).current = (_parse_cpu s).cores.sum / (_parse_cpu s).cores.length := by
  refine ⟨by decide, fun s hne => ?_⟩
  simp only [_parse_cpu] at hne ⊢
  by_cases h : (findAllFuel matchCpuCore (s.data.length + 1) s.data).isEmpty
  · rw [if_pos h] at hne
    exact absurd rfl hne
  · rw [if_neg h, if_neg h]
    rw [List.length_map]

/-- C4, witness: the general average law applied to `threeCoreInput`. -/
theorem C4_cpu_average_witness :
    (_parse_cpu threeCoreInput).cores ≠ [] ∧
    (_parse_cpu threeCoreInput).current =
      (_parse_cpu threeCoreInput).cores.sum / (_parse_cpu threeCoreInput).cores.length :=
  ⟨by decide, C4_cpu_average.2 threeCoreInput (by decide)⟩

/-- C5: every MAC in a parsed client record is uppercase — it is a fixed
point of character-wise `.upper()` and contains no lowercase letter
(code points 97–122). -/
theorem C5_mac_uppercase :
    ∀ (text : String) (c : ClientRecord) (m : String),
      c ∈ _parse_clients text → c.mac = some m →
      m.data.map Char.toUpper = m.data ∧
      ∀ ch ∈ m.data, ¬(ch.toNat ≥ 97 ∧ ch.toNat ≤ 122) := by
  intro text c m hc hmac
  simp only [_parse_clients] at hc
  obtain ⟨hmem, -⟩ := List.mem_filter.mp hc
  obtain ⟨b, -, rfl⟩ := List.mem_map.mp hmem
  simp only [parseClientBlock] at hmac
  rw [Option.map_eq_some'] at hmac
  obtain ⟨g, -, hm⟩ := hmac
  subst hm
  constructor
  · show (g.map Char.toUpper).map Char.toUpper = g.map Char.toUpper
    rw [List.map_map]
    exact List.map_congr_left fun x _ => toUpper_toUpper x
  · intro ch hch
    obtain ⟨x, -, rfl⟩ := List.mem_map.mp hch
    exact toUpper_not_lower x

/-- C5, witness: applied to the record parsed from the lowercase MAC
`aa:bb:cc:dd:ee:ff` in `twoMacInput`. -/
theorem C5_mac_uppercase_witness :
    clientOne ∈ _parse_clients twoMacInput ∧
    ("AA:BB:CC:DD:EE:FF" : String).data.map Char.toUpper =
      ("AA:BB:CC:DD:EE:FF" : String).data ∧
    ∀ ch ∈ ("AA:BB:CC:DD:EE:FF" : String).data, ¬(ch.toNat ≥ 97 ∧ ch.toNat ≤ 122) :=
  ⟨by decide,
   (C5_mac_uppercase twoMacInput clientOne "AA:BB:CC:DD:EE:FF" (by decide) rfl).1,
   (C5_mac_uppercase twoMacInput clientOne "AA:BB:CC:DD:EE:FF" (by decide) rfl).2⟩

/-- C6: every parser maps the empty string to its all-defaults result
("Unknown" strings, 0 counters, empty lists, `False` flags). -/
theorem C6_empty_defaults :
    _parse_version "" = { model := "Unknown", firmware := "Unknown", build_date := "Unknown" } ∧
    _parse_uptime "" = 0 ∧
    _parse_cpu "" = { current := 0, avg_1min := 0, avg_5min := 0, cores := [] } ∧
    _parse_memory "" = 0 ∧
    _parse_clients "" = [] ∧
    _parse_interfaces "" = { ip_address := "Unknown", netmask := "Unknown", interfaces := [] } ∧
    _parse_wlan "" =
      { slot1_active := false, slot1_band := "Unknown", slot1_ssids := [],
        slot2_active := false, slot2_band := "Unknown", slot2_ssids := [] } ∧
    _parse_port_status "" =
      { status := "Unknown", speed := "Unknown", tx_bytes := 0,
        rx_bytes := 0, tx_rate := 0, rx_rate := 0, uptime := "Unknown" } := by
  refine ⟨by decide, by decide, by decide, by decide, by decide, by decide, by decide, by decide⟩

/-- C7: each parser is a total pure function of its input — in this
shallow embedding every parser is a total computable Lean function, so it
yields a value on every input string (the one guarded re-raise site in
the source, the `Display SSID:`/`SSID:` elif, is embedded as a single
guarded match) — and unmatched fields take their documented defaults,
shown here for the version model, the memory percentage and the CPU
section. -/
theorem C7_parsers_total :
    ∀ s : String,
      (∃ v, _parse_version s = v) ∧ (∃ n, _parse_uptime s = n) ∧
      (∃ v, _parse_cpu s = v) ∧ (∃ n, _parse_memory s = n) ∧
      (∃ v, _parse_clients s = v) ∧ (∃ v, _parse_interfaces s = v) ∧
      (∃ v, _parse_wlan s = v) ∧ (∃ v, _parse_port_status s = v) ∧
      (searchIn (matchVerLabel "model".data) s.data = none →
        (_parse_version s).model = "Unknown") ∧
      (searchIn matchMemory s.data = none → _parse_memory s = 0) ∧
      ((_parse_cpu s).cores = [] → (_parse_cpu s).current = 0) := by
  intro s
  refine ⟨⟨_, rfl⟩, ⟨_, rfl⟩, ⟨_, rfl⟩, ⟨_, rfl⟩, ⟨_, rfl⟩, ⟨_, rfl⟩, ⟨_, rfl⟩, ⟨_, rfl⟩,
    fun h => ?_, fun h => ?_, fun h => ?_⟩
  · simp [_parse_version, h]
  · simp [_parse_memory, h]
  · simp only [_parse_cpu] at h ⊢
    by_cases hc : (findAllFuel matchCpuCore (s.data.length + 1) s.data).isEmpty
    · rw [if_pos hc]
    · rw [if_neg hc] at h
      rw [List.map_eq_nil_iff] at h
      rw [List.isEmpty_iff] at hc
      exact absurd h hc

/-- C7, witness: the default-on-unmatched branches at the concrete
malformed input "###". -/
theorem C7_parsers_total_witness :
    searchIn (matchVerLabel "model".data) "###".data = none ∧
    (_parse_version "###").model = "Unknown" ∧
    searchIn matchMemory "###".data = none ∧
    _parse_memory "###" = 0 ∧
    (_parse_cpu "###").cores = [] ∧
    (_parse_cpu "###").current = 0 :=
  ⟨by decide,
   (C7_parsers_total "###").2.2.2.2.2.2.2.2.1 (by decide),
   by decide,
   (C7_parsers_total "###").2.2.2.2.2.2.2.2.2.1 (by decide),
   by decide,
   (C7_parsers_total "###").2.2.2.2.2.2.2.2.2.2 (by decide)⟩

/-- C8: for either value of the enable flag, `async_toggle_guest_ssid`
sends exactly the fixed five-command sequence, pausing after each, and
returns `True` for every oracle — including the all-absence oracle —
with no read-back of the device state. -/
theorem C8_toggle_always_true :
    ∀ (run : String → Option String) (enable : Bool),
      (async_toggle_guest_ssid run enable).2 = true ∧
      (toggleCommands enable).length = 5 ∧
      (async_toggle_guest_ssid run enable).1 =
        [SshEvent.send "configure terminal" (run "configure terminal"), SshEvent.pause,
         SshEvent.send "wlan-ssid-profile Guest" (run "wlan-ssid-profile Guest"), SshEvent.pause,
         SshEvent.send (if enable then "no ssid-schedule" else "ssid-schedule")
           (run (if enable then "no ssid-schedule" else "ssid-schedule")), SshEvent.pause,
         SshEvent.send "exit" (run "exit"), SshEvent.pause,
         SshEvent.send "write" (run "write"), SshEvent.pause] := by
  intro run enable
  cases enable <;> simp [async_toggle_guest_ssid, toggleCommands]

/-- C9: `async_reboot` returns `True` exactly when the single "reboot"
command produced a non-absent response, and `False` on the absence
value; it is a total function of the oracle (never raises). -/
theorem C9_reboot :
    ∀ run : String → Option String,
      (run "reboot" ≠ none → async_reboot run = true) ∧
      (run "reboot" = none → async_reboot run = false) := by
  intro run
  constructor
  · intro h
    unfold async_reboot
    cases hr : run "reboot" with
    | some v => rfl
    | none => exact absurd hr h
  · intro h
    unfold async_reboot
    rw [h]

/-- C9, witness: both branches at concrete oracles. -/
theorem C9_reboot_witness :
    ((fun _ : String => (some "ok" : Option String)) "reboot" ≠ none ∧
      async_reboot (fun _ => some "ok") = true) ∧
    ((fun _ : String => (none : Option String)) "reboot" = none ∧
      async_reboot (fun _ => none) = false) :=
  ⟨⟨by simp, (C9_reboot (fun _ => some "ok")).1 (by simp)⟩,
   ⟨rfl, (C9_reboot (fun _ => none)).2 rfl⟩⟩

/-- C10: every parsed interface row has status exactly "Up", "Down" or
"n/a", and its `ip` is `None` exactly when the matched IP column was the
literal `n/a` — otherwise it is the matched dotted string (a non-empty
string over `[\d.]`, hence never equal to "n/a"). -/
theorem C10_interface_rows :
    ∀ (text : String) (iface : InterfaceRecord),
      iface ∈ (_parse_interfaces text).interfaces →
      (iface.status = "Up" ∨ iface.status = "Down" ∨ iface.status = "n/a") ∧
      (iface.ip = none ∨ ∃ s : String, iface.ip = some s ∧ s ≠ "n/a" ∧
        s.data ≠ [] ∧ ∀ c ∈ s.data, isDotDigitCh c = true) := by
  intro text iface hmem
  simp only [_parse_interfaces] at hmem
  obtain ⟨a, ha, hrec⟩ := List.mem_map.mp hmem
  obtain ⟨g1, g2, g3, g4⟩ := a
  obtain ⟨ys, rest, hm⟩ := findAllFuel_mem ha
  obtain ⟨hstat, hip⟩ := matchIfaceLine_sound hm
  subst hrec
  constructor
  · rcases hstat with rfl | rfl | rfl
    · exact Or.inl rfl
    · exact Or.inr (Or.inl rfl)
    · exact Or.inr (Or.inr rfl)
  · rcases hip with rfl | ⟨hne, hall⟩
    · left
      simp
    · right
      have hneq : String.mk g4 ≠ "n/a" := by
        intro he
        have hdat : g4 = "n/a".data := congrArg String.data he
        rw [hdat] at hall
        have hn := hall 'n' (by simp)
        simp [isDotDigitCh, Char.isDigit] at hn
      refine ⟨String.mk g4, ?_, hneq, hne, hall⟩
      show (if String.mk g4 ≠ "n/a" then some (String.mk g4) else none) = some (String.mk g4)
      rw [if_pos hneq]

/-- C10, witness: applied to the `wan` row of a concrete interface
table. -/
theorem C10_interface_rows_witness :
    ({ name := "lan", status := "Up", ip := some "10.0.20.2" } : InterfaceRecord) ∈
      (_parse_interfaces "2 lan Up 10.0.20.2 255.255.255.0\n3 wan n/a n/a\n").interfaces ∧
    (({ name := "lan", status := "Up", ip := some "10.0.20.2" } : InterfaceRecord).status = "Up" ∨
     ({ name := "lan", status := "Up", ip := some "10.0.20.2" } : InterfaceRecord).status = "Down" ∨
     ({ name := "lan", status := "Up", ip := some "10.0.20.2" } : InterfaceRecord).status = "n/a") :=
  ⟨by decide,
   (C10_interface_rows "2 lan Up 10.0.20.2 255.255.255.0\n3 wan n/a n/a\n" _ (by decide)).1⟩

end Zyxel
